import Mathlib

/-!
# Verification of the mp3-to-text output serializer

Shallow embedding of `save_outputs` and its helper `secs_to_ts` from
`src/index.py` of the `mperper/mp3-to-text` repository, together with
proofs relating the embedded code to the specification's rendering rules.

Python floats are modelled as exact rationals (`ℚ`); Python's `//` and `%`
on floats are floored division and the nonneg-remainder modulus, modelled
by `pyFloorDiv` / `pyMod`.  Python's fixed-point float formatting rounds
to nearest (ties cannot arise from binary floats at 3 decimal digits; the
model uses round-half-to-even, CPython's tie rule).  File-system effects
are modelled by an environment predicate saying which directories can be
created, and the serializer returns the list of (path, content) pairs it
writes, or an error when directory setup fails.
-/

namespace Mp3ToText

/-- One decimal digit as a character. -/
def digitChar (d : Nat) : Char :=
  match d with
  | 0 => '0' | 1 => '1' | 2 => '2' | 3 => '3' | 4 => '4'
  | 5 => '5' | 6 => '6' | 7 => '7' | 8 => '8' | _ => '9'

/-- Fuelled decimal-digit rendering of a natural number (most significant first). -/
def natDigitsF : Nat → Nat → List Char
  | 0, _ => []
  | fuel + 1, n =>
    if n < 10 then [digitChar n]
    else natDigitsF fuel (n / 10) ++ [digitChar (n % 10)]

/-- Decimal digits of a natural number, as rendered by Python's `d` format. -/
def natDigits (n : Nat) : List Char := natDigitsF (n + 1) n

/-- Left-pad a character list with `c` to total width `w`. -/
def leftPad (w : Nat) (c : Char) (l : List Char) : List Char :=
  List.replicate (w - l.length) c ++ l

/-- Python `a // b` on floats: floored division, modelled on rationals. -/
def pyFloorDiv (a b : ℚ) : ℤ := ⌊a / b⌋

/-- Python `a % b` on floats (sign of the divisor), modelled on rationals. -/
def pyMod (a b : ℚ) : ℚ := a - b * (⌊a / b⌋ : ℤ)

/-- Round to the nearest integer, ties to even (CPython float formatting). -/
def halfEvenRound (q : ℚ) : ℤ :=
  if q - ⌊q⌋ = 1 / 2 then (if ⌊q⌋ % 2 = 0 then ⌊q⌋ else ⌊q⌋ + 1)
  else round q

/-- Python `f"{i:0wd}"`: zero-pad to total width `w`, the sign included. -/
def fmtIntW (w : Nat) (i : ℤ) : List Char :=
  if i < 0 then '-' :: leftPad (w - 1) '0' (natDigits i.natAbs)
  else leftPad w '0' (natDigits i.natAbs)

/-- Digits of a fixed-point number with exactly 3 decimals, given the
total count of thousandths. -/
def thousandthsDigits (ms : Nat) : List Char :=
  natDigits (ms / 1000) ++ '.' :: leftPad 3 '0' (natDigits (ms % 1000))

/-- Python `f"{s:06.3f}"`: round to 3 decimals, render with exactly 3
decimal digits, zero-pad the whole rendering to width 6.  (Both call
sites in `secs_to_ts` / the vtt writer pass `s = t % 60 ∈ [0, 60)`.) -/
def fmtFloat63 (s : ℚ) : List Char :=
  let ms := halfEvenRound (1000 * s)
  if ms < 0 then '-' :: leftPad 5 '0' (thousandthsDigits ms.natAbs)
  else leftPad 6 '0' (thousandthsDigits ms.toNat)

/-- The character substitution performed by `.replace(".", ",")`. -/
def dotToComma (c : Char) : Char := if c = '.' then ',' else c

/-- `secs_to_ts` from `src/index.py`: `h = int(t // 3600)`,
`m = int((t % 3600) // 60)`, `s = t % 60`, rendered as
`f"{h:02d}:{m:02d}:{s:06.3f}"` with every `.` replaced by `,`. -/
def secs_to_ts (t : ℚ) : String :=
  let h : ℤ := ⌊t / 3600⌋
  let m : ℤ := ⌊pyMod t 3600 / 60⌋
  let s : ℚ := pyMod t 60
  String.mk ((fmtIntW 2 h ++ ':' :: fmtIntW 2 m ++ ':' :: fmtFloat63 s).map dotToComma)

/-- The inline vtt timestamp of `save_outputs`: the same arithmetic and
format string as `secs_to_ts` but with no comma substitution. -/
def vtt_ts (t : ℚ) : String :=
  String.mk (fmtIntW 2 ⌊t / 3600⌋ ++ ':' :: fmtIntW 2 ⌊pyMod t 3600 / 60⌋
    ++ ':' :: fmtFloat63 (pyMod t 60))

/-! ### Evaluation helpers

`ℚ`-arithmetic (floors, `pyMod`, rounding) does not reduce in the kernel,
so concrete timestamp computations are first rewritten to integer data by
the lemmas below and then finished by `decide` on pure `Nat`/`Int` terms. -/

/-- The character list of a rendered timestamp, given the already-computed
hour, minute and thousandths fields. -/
def tsChars (h m msI : ℤ) : List Char :=
  fmtIntW 2 h ++ ':' :: fmtIntW 2 m ++ ':' ::
    (if msI < 0 then '-' :: leftPad 5 '0' (thousandthsDigits msI.natAbs)
     else leftPad 6 '0' (thousandthsDigits msI.toNat))

theorem floorEq {q : ℚ} {n : ℤ} (h1 : (n : ℚ) ≤ q) (h2 : q < n + 1) : ⌊q⌋ = n :=
  Int.floor_eq_iff.mpr ⟨h1, h2⟩

theorem pyMod_eq {a b : ℚ} {k : ℤ} (hk : ⌊a / b⌋ = k) {r : ℚ}
    (hr : a - b * k = r) : pyMod a b = r := by
  unfold pyMod; rw [hk, hr]

theorem halfEvenRound_eval {q : ℚ} {f n : ℤ} (hf : ⌊q⌋ = f)
    (hne : q - (f : ℚ) ≠ 1 / 2) (hr : ⌊q + 1 / 2⌋ = n) : halfEvenRound q = n := by
  unfold halfEvenRound
  rw [hf, if_neg hne, round_eq, hr]

theorem ts_eval (t : ℚ) (h m msI : ℤ)
    (hh : ⌊t / 3600⌋ = h)
    (hm : ⌊pyMod t 3600 / 60⌋ = m)
    (hms : halfEvenRound (1000 * pyMod t 60) = msI) :
    secs_to_ts t = String.mk ((tsChars h m msI).map dotToComma) ∧
      vtt_ts t = String.mk (tsChars h m msI) := by
  simp only [secs_to_ts, vtt_ts, fmtFloat63, tsChars]
  rw [hh, hm, hms]
  exact ⟨rfl, rfl⟩

theorem ts_at_0 : secs_to_ts 0 = "00:00:00,000" ∧ vtt_ts 0 = "00:00:00.000" := by
  have p3600 : pyMod (0 : ℚ) 3600 = 0 :=
    pyMod_eq (k := 0) (floorEq (by norm_num) (by norm_num)) (by norm_num)
  have p60 : pyMod (0 : ℚ) 60 = 0 :=
    pyMod_eq (k := 0) (floorEq (by norm_num) (by norm_num)) (by norm_num)
  have h := ts_eval 0 0 0 0 (floorEq (by norm_num) (by norm_num))
    (by rw [p3600]; exact floorEq (by norm_num) (by norm_num))
    (by rw [p60]
        exact halfEvenRound_eval (f := 0) (floorEq (by norm_num) (by norm_num))
          (by norm_num) (floorEq (by norm_num) (by norm_num)))
  rw [h.1, h.2]; exact ⟨by decide, by decide⟩

theorem ts_at_5 : secs_to_ts 5 = "00:00:05,000" ∧ vtt_ts 5 = "00:00:05.000" := by
  have p3600 : pyMod (5 : ℚ) 3600 = 5 :=
    pyMod_eq (k := 0) (floorEq (by norm_num) (by norm_num)) (by norm_num)
  have p60 : pyMod (5 : ℚ) 60 = 5 :=
    pyMod_eq (k := 0) (floorEq (by norm_num) (by norm_num)) (by norm_num)
  have h := ts_eval 5 0 0 5000 (floorEq (by norm_num) (by norm_num))
    (by rw [p3600]; exact floorEq (by norm_num) (by norm_num))
    (by rw [p60]
        exact halfEvenRound_eval (f := 5000) (floorEq (by norm_num) (by norm_num))
          (by norm_num) (floorEq (by norm_num) (by norm_num)))
  rw [h.1, h.2]; exact ⟨by decide, by decide⟩

theorem ts_at_65 : secs_to_ts 65 = "00:01:05,000" ∧ vtt_ts 65 = "00:01:05.000" := by
  have p3600 : pyMod (65 : ℚ) 3600 = 65 :=
    pyMod_eq (k := 0) (floorEq (by norm_num) (by norm_num)) (by norm_num)
  have p60 : pyMod (65 : ℚ) 60 = 5 :=
    pyMod_eq (k := 1) (floorEq (by norm_num) (by norm_num)) (by norm_num)
  have h := ts_eval 65 0 1 5000 (floorEq (by norm_num) (by norm_num))
    (by rw [p3600]; exact floorEq (by norm_num) (by norm_num))
    (by rw [p60]
        exact halfEvenRound_eval (f := 5000) (floorEq (by norm_num) (by norm_num))
          (by norm_num) (floorEq (by norm_num) (by norm_num)))
  rw [h.1, h.2]; exact ⟨by decide, by decide⟩

theorem ts_at_3661_5 :
    secs_to_ts (3661.5 : ℚ) = "01:01:01,500" ∧ vtt_ts (3661.5 : ℚ) = "01:01:01.500" := by
  have p3600 : pyMod (3661.5 : ℚ) 3600 = 61.5 :=
    pyMod_eq (k := 1) (floorEq (by norm_num) (by norm_num)) (by norm_num)
  have p60 : pyMod (3661.5 : ℚ) 60 = 1.5 :=
    pyMod_eq (k := 61) (floorEq (by norm_num) (by norm_num)) (by norm_num)
  have h := ts_eval 3661.5 1 1 1500 (floorEq (by norm_num) (by norm_num))
    (by rw [p3600]; exact floorEq (by norm_num) (by norm_num))
    (by rw [p60]
        exact halfEvenRound_eval (f := 1500) (floorEq (by norm_num) (by norm_num))
          (by norm_num) (floorEq (by norm_num) (by norm_num)))
  rw [h.1, h.2]; exact ⟨by decide, by decide⟩

theorem ts_at_450000 :
    secs_to_ts 450000 = "125:00:00,000" ∧ vtt_ts 450000 = "125:00:00.000" := by
  have p3600 : pyMod (450000 : ℚ) 3600 = 0 :=
    pyMod_eq (k := 125) (floorEq (by norm_num) (by norm_num)) (by norm_num)
  have p60 : pyMod (450000 : ℚ) 60 = 0 :=
    pyMod_eq (k := 7500) (floorEq (by norm_num) (by norm_num)) (by norm_num)
  have h := ts_eval 450000 125 0 0 (floorEq (by norm_num) (by norm_num))
    (by rw [p3600]; exact floorEq (by norm_num) (by norm_num))
    (by rw [p60]
        exact halfEvenRound_eval (f := 0) (floorEq (by norm_num) (by norm_num))
          (by norm_num) (floorEq (by norm_num) (by norm_num)))
  rw [h.1, h.2]; exact ⟨by decide, by decide⟩

theorem ts_at_59_9996 :
    secs_to_ts (599996 / 10000 : ℚ) = "00:00:60,000" ∧
      vtt_ts (599996 / 10000 : ℚ) = "00:00:60.000" := by
  have p3600 : pyMod (599996 / 10000 : ℚ) 3600 = 599996 / 10000 :=
    pyMod_eq (k := 0) (floorEq (by norm_num) (by norm_num)) (by norm_num)
  have p60 : pyMod (599996 / 10000 : ℚ) 60 = 599996 / 10000 :=
    pyMod_eq (k := 0) (floorEq (by norm_num) (by norm_num)) (by norm_num)
  have h := ts_eval (599996 / 10000) 0 0 60000 (floorEq (by norm_num) (by norm_num))
    (by rw [p3600]; exact floorEq (by norm_num) (by norm_num))
    (by rw [p60]
        exact halfEvenRound_eval (f := 59999) (floorEq (by norm_num) (by norm_num))
          (by norm_num) (floorEq (by norm_num) (by norm_num)))
  rw [h.1, h.2]; exact ⟨by decide, by decide⟩

/-! ### Digit and padding lemmas -/

theorem digitChar_ne_dot (d : Nat) : digitChar d ≠ '.' := by
  unfold digitChar
  split <;> decide

theorem natDigitsF_fuel : ∀ f1 f2 n, n < f1 → n < f2 →
    natDigitsF f1 n = natDigitsF f2 n := by
  intro f1
  induction f1 with
  | zero => intro f2 n h1; omega
  | succ f ih =>
    intro f2 n h1 h2
    cases f2 with
    | zero => omega
    | succ f2 =>
      simp only [natDigitsF]
      by_cases h : n < 10
      · rw [if_pos h, if_pos h]
      · rw [if_neg h, if_neg h, ih f2 (n / 10) (by omega) (by omega)]

theorem natDigits_small {n : Nat} (h : n < 10) : natDigits n = [digitChar n] := by
  unfold natDigits natDigitsF
  rw [if_pos h]

theorem natDigits_step {n : Nat} (h : 10 ≤ n) :
    natDigits n = natDigits (n / 10) ++ [digitChar (n % 10)] := by
  unfold natDigits
  conv_lhs => rw [natDigitsF]
  rw [if_neg (by omega)]
  rw [natDigitsF_fuel n (n / 10 + 1) (n / 10) (by omega) (by omega)]

theorem natDigits_ne_dot (n : Nat) : ∀ c ∈ natDigits n, c ≠ '.' := by
  induction n using Nat.strong_induction_on with
  | _ n ih =>
    by_cases h : n < 10
    · rw [natDigits_small h]
      intro c hc
      simp only [List.mem_singleton] at hc
      exact hc ▸ digitChar_ne_dot n
    · rw [natDigits_step (by omega)]
      intro c hc
      rcases List.mem_append.mp hc with hc | hc
      · exact ih (n / 10) (by omega) c hc
      · simp only [List.mem_singleton] at hc
        exact hc ▸ digitChar_ne_dot (n % 10)

theorem natDigits_length_le : ∀ k n, 0 < k → n < 10 ^ k →
    (natDigits n).length ≤ k := by
  intro k
  induction k with
  | zero => omega
  | succ k ih =>
    intro n _ hn
    by_cases h : n < 10
    · rw [natDigits_small h]; simp
    · rw [natDigits_step (by omega)]
      have hp : 10 ^ (k + 1) = 10 ^ k * 10 := pow_succ 10 k
      have hk : 0 < k := by
        by_contra hk0
        have : k = 0 := by omega
        subst this
        norm_num at hn
        omega
      have : n / 10 < 10 ^ k := by omega
      have := ih (n / 10) hk this
      simp only [List.length_append, List.length_singleton]
      omega

theorem leftPad_length (w : Nat) (c : Char) (l : List Char) :
    (leftPad w c l).length = (w - l.length) + l.length := by
  unfold leftPad
  simp

theorem leftPad_append (w k : Nat) (c : Char) (A T : List Char)
    (hT : T.length = k) : leftPad (w + k) c (A ++ T) = leftPad w c A ++ T := by
  unfold leftPad
  rw [List.length_append, hT, List.append_assoc]
  congr 2
  omega

theorem map_eq_self {f : Char → Char} :
    ∀ l : List Char, (∀ c ∈ l, f c = c) → l.map f = l := by
  intro l h
  induction l with
  | nil => rfl
  | cons a l ih =>
    simp only [List.map_cons]
    rw [h a (by simp), ih (fun c hc => h c (by simp [hc]))]

theorem map_dotToComma_pad (w : Nat) (l : List Char) (hl : ∀ c ∈ l, c ≠ '.') :
    (leftPad w '0' l).map dotToComma = leftPad w '0' l := by
  apply map_eq_self
  intro c hc
  unfold leftPad at hc
  rcases List.mem_append.mp hc with hc | hc
  · rw [List.eq_of_mem_replicate hc]; rfl
  · rw [dotToComma, if_neg (hl c hc)]

theorem map_dotToComma_digits (n : Nat) :
    (natDigits n).map dotToComma = natDigits n :=
  map_eq_self _ (fun c hc => by rw [dotToComma, if_neg (natDigits_ne_dot n c hc)])

/-! ### Arithmetic bounds for the decomposition -/

theorem pyMod_nonneg (a b : ℚ) (hb : 0 < b) : 0 ≤ pyMod a b := by
  unfold pyMod
  have h1 : (⌊a / b⌋ : ℚ) ≤ a / b := Int.floor_le (a / b)
  have h2 : b * (⌊a / b⌋ : ℚ) ≤ b * (a / b) := by
    exact mul_le_mul_of_nonneg_left h1 hb.le
  rw [mul_div_cancel₀ a hb.ne'] at h2
  linarith

theorem pyMod_lt (a b : ℚ) (hb : 0 < b) : pyMod a b < b := by
  unfold pyMod
  have h1 : a / b < (⌊a / b⌋ : ℚ) + 1 := Int.lt_floor_add_one (a / b)
  have h2 : b * (a / b) < b * ((⌊a / b⌋ : ℚ) + 1) := by
    exact mul_lt_mul_of_pos_left h1 hb
  rw [mul_div_cancel₀ a hb.ne'] at h2
  nlinarith

theorem halfEvenRound_nonneg {q : ℚ} (h : 0 ≤ q) : 0 ≤ halfEvenRound q := by
  unfold halfEvenRound
  have hf : (0 : ℤ) ≤ ⌊q⌋ := Int.floor_nonneg.mpr h
  split
  · split <;> omega
  · rw [round_eq]
    exact Int.floor_nonneg.mpr (by linarith)

theorem halfEvenRound_le_floor_add_one (q : ℚ) : halfEvenRound q ≤ ⌊q⌋ + 1 := by
  unfold halfEvenRound
  split
  · split <;> omega
  · rw [round_eq]
    have : ⌊q + 1 / 2⌋ ≤ ⌊q + 1⌋ := Int.floor_le_floor (by linarith)
    rw [show q + 1 = q + (1 : ℤ) by norm_num, Int.floor_add_int] at this
    exact this

/-! ### The timestamp rendering rule, as the specification words it -/

/-- Decimal rendering of a natural number, zero-padded to width `w`. -/
def padNat (w n : Nat) : String := String.mk (leftPad w '0' (natDigits n))

/-- Modelled from the spec: decompose a seconds value as
`h = floor(t/3600)`, `m = floor((t mod 3600)/60)`, `s = t mod 60`; pad
hours and minutes to at least two digits; render `s` with the integer
part padded to two digits, a comma as decimal separator and exactly 3
decimal digits (the rounded thousandths `ms`, integer part `ms / 1000`,
fraction `ms % 1000`). -/
def srtTimestampSpec (t : ℚ) : String :=
  let ms : Nat := (halfEvenRound (1000 * pyMod t 60)).toNat
  padNat 2 (⌊t / 3600⌋).toNat ++ ":" ++ padNat 2 (⌊pyMod t 3600 / 60⌋).toNat ++ ":" ++
    padNat 2 (ms / 1000) ++ "," ++ padNat 3 (ms % 1000)

/-- Modelled from the spec: the vtt timestamp, identical to the srt one
except for a period as the decimal separator. -/
def vttTimestampSpec (t : ℚ) : String :=
  let ms : Nat := (halfEvenRound (1000 * pyMod t 60)).toNat
  padNat 2 (⌊t / 3600⌋).toNat ++ ":" ++ padNat 2 (⌊pyMod t 3600 / 60⌋).toNat ++ ":" ++
    padNat 2 (ms / 1000) ++ "." ++ padNat 3 (ms % 1000)

theorem strMk_append (a b : List Char) :
    String.mk a ++ String.mk b = String.mk (a ++ b) := rfl

theorem fmtIntW_of_nonneg (w : Nat) {i : ℤ} (h : 0 ≤ i) :
    fmtIntW w i = leftPad w '0' (natDigits i.toNat) := by
  unfold fmtIntW
  rw [if_neg (not_lt.mpr h), show i.natAbs = i.toNat by omega]

/-- The shared refinement: for non-negative time the code's rendering and
the specification's rendering agree, for the srt and the vtt variants. -/
theorem ts_spec_eq {t : ℚ} (ht : 0 ≤ t) :
    secs_to_ts t = srtTimestampSpec t ∧ vtt_ts t = vttTimestampSpec t := by
  have hh : (0 : ℤ) ≤ ⌊t / 3600⌋ := Int.floor_nonneg.mpr (by positivity)
  have hm3600 : 0 ≤ pyMod t 3600 := pyMod_nonneg t 3600 (by norm_num)
  have hm : (0 : ℤ) ≤ ⌊pyMod t 3600 / 60⌋ := Int.floor_nonneg.mpr (by positivity)
  have hs0 : 0 ≤ pyMod t 60 := pyMod_nonneg t 60 (by norm_num)
  have hs60 : pyMod t 60 < 60 := pyMod_lt t 60 (by norm_num)
  have hms0 : 0 ≤ halfEvenRound (1000 * pyMod t 60) :=
    halfEvenRound_nonneg (by positivity)
  have hmsU : halfEvenRound (1000 * pyMod t 60) ≤ 60000 := by
    have h1 := halfEvenRound_le_floor_add_one (1000 * pyMod t 60)
    have h2 : ⌊(1000 : ℚ) * pyMod t 60⌋ < 60000 := by
      rw [Int.floor_lt]
      push_cast
      linarith
    omega
  set msZ : ℤ := halfEvenRound (1000 * pyMod t 60) with hmsZ
  have hfrac : (msZ.toNat % 1000) < 1000 := Nat.mod_lt _ (by norm_num)
  have hflen : (leftPad 3 '0' (natDigits (msZ.toNat % 1000))).length = 3 := by
    rw [leftPad_length]
    have := natDigits_length_le 3 (msZ.toNat % 1000) (by norm_num) (by norm_num [hfrac])
    omega
  have hfloat : fmtFloat63 (pyMod t 60) =
      leftPad 2 '0' (natDigits (msZ.toNat / 1000)) ++
        '.' :: leftPad 3 '0' (natDigits (msZ.toNat % 1000)) := by
    simp only [fmtFloat63, ← hmsZ]
    rw [if_neg (not_lt.mpr hms0)]
    unfold thousandthsDigits
    rw [show (6 : Nat) = 2 + 4 by rfl]
    rw [leftPad_append 2 4 '0' _ _ (by simp [hflen])]
  constructor
  · show String.mk _ = _
    unfold srtTimestampSpec padNat
    simp only [strMk_append]
    apply congrArg String.mk
    rw [fmtIntW_of_nonneg 2 hh, fmtIntW_of_nonneg 2 hm, hfloat]
    simp only [List.map_append, List.map_cons]
    rw [map_dotToComma_pad 2 _ (natDigits_ne_dot _),
        map_dotToComma_pad 2 _ (natDigits_ne_dot _),
        map_dotToComma_pad 2 _ (natDigits_ne_dot _),
        map_dotToComma_pad 3 _ (natDigits_ne_dot _)]
    simp [dotToComma, List.append_assoc]
  · show String.mk _ = _
    unfold vttTimestampSpec padNat
    simp only [strMk_append]
    apply congrArg String.mk
    rw [fmtIntW_of_nonneg 2 hh, fmtIntW_of_nonneg 2 hm, hfloat]
    simp [List.append_assoc]

theorem ts_at_neg_5 :
    secs_to_ts (-5 : ℚ) = "-1:59:55,000" ∧ vtt_ts (-5 : ℚ) = "-1:59:55.000" := by
  have p3600 : pyMod (-5 : ℚ) 3600 = 3595 :=
    pyMod_eq (k := -1) (floorEq (by norm_num) (by norm_num)) (by norm_num)
  have p60 : pyMod (-5 : ℚ) 60 = 55 :=
    pyMod_eq (k := -1) (floorEq (by norm_num) (by norm_num)) (by norm_num)
  have h := ts_eval (-5) (-1) 59 55000 (floorEq (by norm_num) (by norm_num))
    (by rw [p3600]; exact floorEq (by norm_num) (by norm_num))
    (by rw [p60]
        exact halfEvenRound_eval (f := 55000) (floorEq (by norm_num) (by norm_num))
          (by norm_num) (floorEq (by norm_num) (by norm_num)))
  rw [h.1, h.2]; exact ⟨by decide, by decide⟩

/-! ### Data model

The loosely-shaped mapping returned by the engine, restricted to the keys
`save_outputs` reads: `result["text"]`, `result["segments"]`,
`seg["start"]`, `seg["end"]`, `seg["text"]`, the presence-checked
`seg["words"]` and `w["word"]` (plus the per-word timings the engine
stores alongside, which only the json branch ever serializes). -/

structure Word where
  word : String
  start : ℚ
  «end» : ℚ
deriving DecidableEq

structure Segment where
  start : ℚ
  «end» : ℚ
  text : String
  words : Option (List Word)
deriving DecidableEq

structure TranscriptionResult where
  text : String
  segments : List Segment
deriving DecidableEq

/-- Python `str.strip()` whitespace (the ASCII part used by the outputs). -/
def pyIsSpace (c : Char) : Bool :=
  c = ' ' || c = '\t' || c = '\n' || c = '\r' || c = '\x0b' || c = '\x0c'

/-- Python `s.strip()`: drop leading and trailing whitespace. -/
def pyStrip (s : String) : String :=
  String.mk (((s.data.dropWhile pyIsSpace).reverse.dropWhile pyIsSpace).reverse)

/-- `" ".join([w["word"] for w in words])`. -/
def wordLine (ws : List Word) : String :=
  String.intercalate " " (ws.map (fun w => w.word))

/-- One srt cue as written by `save_outputs`:
`f"{i}\n{start} --> {end}\n" + "\n".join(lines) + "\n\n"` where `lines`
is the stripped segment text followed by the stripped word line when
`with_words` holds, the segment has a `words` key and the joined line is
non-empty. -/
def srtCue (i : Nat) (seg : Segment) (with_words : Bool) : String :=
  let start := secs_to_ts seg.start
  let e := secs_to_ts seg.«end»
  let lines := [pyStrip seg.text] ++
    (match with_words, seg.words with
     | true, some ws =>
       let wl := wordLine ws
       if wl = "" then [] else [pyStrip wl]
     | _, _ => [])
  Nat.repr i ++ "\n" ++ start ++ " --> " ++ e ++ "\n" ++
    String.intercalate "\n" lines ++ "\n\n"

/-- The whole `.srt` file: cues for the segments enumerated from 1. -/
def srtContent (r : TranscriptionResult) (with_words : Bool) : String :=
  String.join ((List.enumFrom 1 r.segments).map (fun p => srtCue p.1 p.2 with_words))

/-- One vtt cue as written by `save_outputs` (inline timestamps, no
index, no word line). -/
def vttCue (seg : Segment) : String :=
  vtt_ts seg.start ++ " --> " ++ vtt_ts seg.«end» ++ "\n" ++ pyStrip seg.text ++ "\n\n"

/-- The whole `.vtt` file: the `WEBVTT` header, a blank line, the cues. -/
def vttContent (r : TranscriptionResult) : String :=
  "WEBVTT\n\n" ++ String.join (r.segments.map vttCue)

/-- The whole `.txt` file: `result["text"].strip() + "\n"`. -/
def txtContent (r : TranscriptionResult) : String :=
  pyStrip r.text ++ "\n"

/-! ### JSON values

`json.dump(result, f, ensure_ascii=False, indent=2)` serializes the
result mapping; the value-level structure of that document is modelled by
`Json` and `encodeResult`, and `json.load` by the decoders. -/

inductive Json where
  | null : Json
  | bool (b : Bool) : Json
  | num (q : ℚ) : Json
  | str (s : String) : Json
  | arr (elems : List Json) : Json
  | obj (members : List (String × Json)) : Json

def encodeWord (w : Word) : Json :=
  .obj [("word", .str w.word), ("start", .num w.start), ("end", .num w.«end»)]

def encodeSegment (s : Segment) : Json :=
  .obj ([("start", .num s.start), ("end", .num s.«end»), ("text", .str s.text)] ++
    (match s.words with
     | none => []
     | some ws => [("words", .arr (ws.map encodeWord))]))

def encodeResult (r : TranscriptionResult) : Json :=
  .obj [("text", .str r.text), ("segments", .arr (r.segments.map encodeSegment))]

def asStr : Json → Option String
  | .str s => some s
  | _ => none

def asNum : Json → Option ℚ
  | .num q => some q
  | _ => none

def decodeWord : Json → Option Word
  | .obj kvs => do
    let w ← kvs.lookup "word" >>= asStr
    let st ← kvs.lookup "start" >>= asNum
    let en ← kvs.lookup "end" >>= asNum
    pure ⟨w, st, en⟩
  | _ => none

def decodeWords : List Json → Option (List Word)
  | [] => some []
  | j :: rest => do
    let w ← decodeWord j
    let ws ← decodeWords rest
    pure (w :: ws)

def decodeSegment : Json → Option Segment
  | .obj kvs => do
    let st ← kvs.lookup "start" >>= asNum
    let en ← kvs.lookup "end" >>= asNum
    let tx ← kvs.lookup "text" >>= asStr
    match kvs.lookup "words" with
    | none => pure ⟨st, en, tx, none⟩
    | some (.arr js) => do
      let ws ← decodeWords js
      pure ⟨st, en, tx, some ws⟩
    | some _ => none
  | _ => none

def decodeSegments : List Json → Option (List Segment)
  | [] => some []
  | j :: rest => do
    let s ← decodeSegment j
    let ss ← decodeSegments rest
    pure (s :: ss)

def decodeResult : Json → Option TranscriptionResult
  | .obj kvs => do
    let tx ← kvs.lookup "text" >>= asStr
    match kvs.lookup "segments" with
    | some (.arr js) => do
      let ss ← decodeSegments js
      pure ⟨tx, ss⟩
    | _ => none
  | _ => none

/-! ### File writing -/

/-- Content of one written file: text formats carry the exact string,
the json format carries the serialized document's value. -/
inductive FileData where
  | text (s : String) : FileData
  | json (j : Json) : FileData

/-- `os.path.dirname` for POSIX paths: everything before the last `/`,
with trailing slashes stripped unless the head is all slashes; the empty
string when there is no `/`. -/
def pyDirname (p : String) : String :=
  let head := (p.data.reverse.dropWhile (fun c => c ≠ '/')).reverse
  if head.isEmpty then ""
  else if head.all (fun c => c = '/') then String.mk head
  else String.mk ((head.reverse.dropWhile (fun c => c = '/')).reverse)

/-- Modelled from Python `os.makedirs(d, exist_ok=True)` semantics: the
call raises `FileNotFoundError` on the empty path; otherwise it creates
the directory and all missing ancestors, succeeding when the environment
allows that (an existing directory counts as success under
`exist_ok=True`). The environment predicate abstracts the file system. -/
def makedirsOk (env : String → Bool) (d : String) : Bool :=
  if d = "" then false else env d

/-- `save_outputs(base_out, result, formats, with_words)`: directory
setup first (`os.makedirs(os.path.dirname(base_out), exist_ok=True)`),
then one file per recognized member of `formats`, in the fixed order
txt, srt, vtt, json.  An exception from `makedirs` aborts the call
before any file is written. -/
def save_outputs (env : String → Bool) (base_out : String)
    (result : TranscriptionResult) (formats : Finset String)
    (with_words : Bool) : Except Unit (List (String × FileData)) :=
  if makedirsOk env (pyDirname base_out) then
    .ok ((if "txt" ∈ formats then [(base_out ++ ".txt", .text (txtContent result))] else []) ++
      (if "srt" ∈ formats then
        [(base_out ++ ".srt", .text (srtContent result with_words))] else []) ++
      (if "vtt" ∈ formats then [(base_out ++ ".vtt", .text (vttContent result))] else []) ++
      (if "json" ∈ formats then [(base_out ++ ".json", .json (encodeResult result))] else []))
  else .error ()

/-! ### String assembly toolkit -/

theorem strFoldl_shift (l : List String) :
    ∀ x : String, l.foldl (fun r s => r ++ s) x = x ++ l.foldl (fun r s => r ++ s) "" := by
  induction l with
  | nil => intro x; exact (String.append_empty x).symm
  | cons a l ih =>
    intro x
    simp only [List.foldl]
    rw [ih (x ++ a), ih ("" ++ a), String.empty_append, String.append_assoc]

theorem strJoin_cons (a : String) (l : List String) :
    String.join (a :: l) = a ++ String.join l := by
  unfold String.join
  simp only [List.foldl]
  rw [strFoldl_shift l ("" ++ a), String.empty_append]

theorem strJoin_nil : String.join ([] : List String) = "" := rfl

theorem nl_nl : ("\n" : String) ++ "\n" = "\n\n" := rfl

/-! ### Per-format layout, as the specification words it -/

/-- Modelled from the spec: an srt cue is the 1-based index line, the
`start --> end` line, the trimmed segment text line, then — only when
`includeWordLine` holds, the segment has words and the space-joined word
texts are non-empty — the trimmed word line, then a blank line. -/
def srtCueSpec (i : Nat) (seg : Segment) (includeWordLine : Bool) : String :=
  Nat.repr i ++ "\n" ++ secs_to_ts seg.start ++ " --> " ++ secs_to_ts seg.«end» ++ "\n" ++
    pyStrip seg.text ++ "\n" ++
    (match seg.words with
     | some ws =>
       if includeWordLine = true ∧ wordLine ws ≠ "" then pyStrip (wordLine ws) ++ "\n" else ""
     | none => "") ++ "\n"

/-- Modelled from the spec: the srt file is the cues of the segments in
1-based sequential order. -/
def srtContentSpec (r : TranscriptionResult) (includeWordLine : Bool) : String :=
  String.join ((List.enumFrom 1 r.segments).map (fun p => srtCueSpec p.1 p.2 includeWordLine))

/-- Modelled from the spec: a vtt cue is the timestamp line, the trimmed
segment text line and a blank line; no index, never a word line. -/
def vttCueSpec (seg : Segment) : String :=
  vtt_ts seg.start ++ " --> " ++ vtt_ts seg.«end» ++ "\n" ++ pyStrip seg.text ++ "\n" ++ "\n"

/-- Modelled from the spec: the vtt file is the `WEBVTT` header line, a
blank line, then the cues in original order. -/
def vttContentSpec (r : TranscriptionResult) : String :=
  "WEBVTT" ++ "\n" ++ "\n" ++ String.join (r.segments.map vttCueSpec)

theorem srtCue_eq_spec (i : Nat) (seg : Segment) (ww : Bool) :
    srtCue i seg ww = srtCueSpec i seg ww := by
  unfold srtCue srtCueSpec
  cases ww with
  | false =>
    cases seg.words with
    | none =>
      simp [String.intercalate, String.intercalate.go, String.append_assoc,
        String.append_empty, ← nl_nl]
    | some ws =>
      simp [String.intercalate, String.intercalate.go, String.append_assoc,
        String.append_empty, ← nl_nl]
  | true =>
    cases seg.words with
    | none =>
      simp [String.intercalate, String.intercalate.go, String.append_assoc,
        String.append_empty, ← nl_nl]
    | some ws =>
      by_cases hwl : wordLine ws = ""
      · simp [hwl, String.intercalate, String.intercalate.go, String.append_assoc,
          String.append_empty, ← nl_nl]
      · simp [hwl, String.intercalate, String.intercalate.go, String.append_assoc,
          String.append_empty, ← nl_nl]

theorem srtContent_eq_spec (r : TranscriptionResult) (ww : Bool) :
    srtContent r ww = srtContentSpec r ww := by
  unfold srtContent srtContentSpec
  simp only [srtCue_eq_spec]

theorem vttCue_eq_spec (seg : Segment) : vttCue seg = vttCueSpec seg := by
  unfold vttCue vttCueSpec
  simp [String.append_assoc, ← nl_nl]

theorem vttContent_eq_spec (r : TranscriptionResult) :
    vttContent r = vttContentSpec r := by
  unfold vttContent vttContentSpec
  rw [funext vttCue_eq_spec]
  rfl

/-! ### JSON round trip -/

theorem decodeWord_enc (w : Word) : decodeWord (encodeWord w) = some w := rfl

theorem decodeWords_enc (ws : List Word) :
    decodeWords (ws.map encodeWord) = some ws := by
  induction ws with
  | nil => rfl
  | cons w ws ih =>
    show (decodeWords (ws.map encodeWord)).bind (fun l => some (w :: l)) = some (w :: ws)
    rw [ih]
    rfl

theorem decodeSegment_enc (s : Segment) : decodeSegment (encodeSegment s) = some s := by
  obtain ⟨st, en, tx, words⟩ := s
  cases words with
  | none => rfl
  | some ws =>
    show (decodeWords (ws.map encodeWord)).bind
        (fun l => some (Segment.mk st en tx (some l))) =
      some (Segment.mk st en tx (some ws))
    rw [decodeWords_enc]
    rfl

theorem decodeSegments_enc (ss : List Segment) :
    decodeSegments (ss.map encodeSegment) = some ss := by
  induction ss with
  | nil => rfl
  | cons s ss ih =>
    show (decodeSegment (encodeSegment s)).bind
      (fun a => (decodeSegments (ss.map encodeSegment)).bind (fun l => some (a :: l))) = _
    rw [decodeSegment_enc]
    show (decodeSegments (ss.map encodeSegment)).bind (fun l => some (s :: l)) = some (s :: ss)
    rw [ih]
    rfl

theorem decodeResult_enc (r : TranscriptionResult) :
    decodeResult (encodeResult r) = some r := by
  obtain ⟨tx, segs⟩ := r
  show (decodeSegments (segs.map encodeSegment)).bind
      (fun l => some (TranscriptionResult.mk tx l)) =
    some (TranscriptionResult.mk tx segs)
  rw [decodeSegments_enc]
  rfl

/-! ### Shape of a successful save -/

theorem save_outputs_ok (env : String → Bool) (base : String)
    (r : TranscriptionResult) (fmts : Finset String) (ww : Bool)
    (h : makedirsOk env (pyDirname base) = true) :
    save_outputs env base r fmts ww = .ok
      ((if "txt" ∈ fmts then [(base ++ ".txt", .text (txtContent r))] else []) ++
        (if "srt" ∈ fmts then [(base ++ ".srt", .text (srtContent r ww))] else []) ++
        (if "vtt" ∈ fmts then [(base ++ ".vtt", .text (vttContent r))] else []) ++
        (if "json" ∈ fmts then [(base ++ ".json", .json (encodeResult r))] else [])) := by
  unfold save_outputs
  rw [if_pos h]

/-! ## The claims -/

/-- C1: for every non-negative seconds value `t` the shared timestamp
primitive renders `h = floor(t/3600)` zero-padded to at least 2 digits
with no cap at 24, `m = floor((t mod 3600)/60)` zero-padded to 2 digits
and `s = t mod 60` with the integer part zero-padded to 2 digits and
exactly 3 decimal digits; `t = 0, 5, 65, 3661.5` render as
`00:00:00,000`, `00:00:05,000`, `00:01:05,000`, `01:01:01,500` in srt,
and the vtt variant differs only by comma→period. -/
theorem claim_C1_timestamp_rendering :
    (∀ t : ℚ, 0 ≤ t → secs_to_ts t = srtTimestampSpec t ∧ vtt_ts t = vttTimestampSpec t) ∧
    (∀ t : ℚ, secs_to_ts t = String.mk ((vtt_ts t).data.map dotToComma)) ∧
    (secs_to_ts 0 = "00:00:00,000" ∧ secs_to_ts 5 = "00:00:05,000" ∧
      secs_to_ts 65 = "00:01:05,000" ∧ secs_to_ts (3661.5 : ℚ) = "01:01:01,500") ∧
    (vtt_ts 0 = "00:00:00.000" ∧ vtt_ts 5 = "00:00:05.000" ∧
      vtt_ts 65 = "00:01:05.000" ∧ vtt_ts (3661.5 : ℚ) = "01:01:01.500") ∧
    secs_to_ts 450000 = "125:00:00,000" :=
  ⟨fun _ ht => ts_spec_eq ht, fun _ => rfl,
    ⟨ts_at_0.1, ts_at_5.1, ts_at_65.1, ts_at_3661_5.1⟩,
    ⟨ts_at_0.2, ts_at_5.2, ts_at_65.2, ts_at_3661_5.2⟩,
    ts_at_450000.1⟩

/-- Witness for C1 at `t = 0`. -/
theorem claim_C1_witness :
    secs_to_ts 0 = srtTimestampSpec 0 ∧ vtt_ts 0 = vttTimestampSpec 0 :=
  claim_C1_timestamp_rendering.1 0 (le_refl 0)

/-- C2: the srt file consists, for each segment in 1-based order, of the
index line, the `start --> end` comma-timestamp line, the trimmed
segment text, then — only when `includeWordLine` is true, words are
present and the joined words are non-empty — the space-joined trimmed
word line, followed by a blank line; for words `hi`, `there` the word
line is exactly `hi there`, and it is absent when the flag is false. -/
theorem claim_C2_srt_layout :
    (∀ r ww, srtContent r ww = srtContentSpec r ww) ∧
    (∀ env base r fmts ww, makedirsOk env (pyDirname base) = true → "srt" ∈ fmts →
      ∃ files, save_outputs env base r fmts ww = .ok files ∧
        (base ++ ".srt", FileData.text (srtContent r ww)) ∈ files) ∧
    (∀ seg : Segment, seg.words = some [Word.mk "hi" 0 0, Word.mk "there" 0 0] →
      srtCue 1 seg true = "1\n" ++ secs_to_ts seg.start ++ " --> " ++
        secs_to_ts seg.«end» ++ "\n" ++ pyStrip seg.text ++ "\nhi there\n\n" ∧
      srtCue 1 seg false = "1\n" ++ secs_to_ts seg.start ++ " --> " ++
        secs_to_ts seg.«end» ++ "\n" ++ pyStrip seg.text ++ "\n\n") := by
  refine ⟨srtContent_eq_spec, ?_, ?_⟩
  · intro env base r fmts ww h hsrt
    refine ⟨_, save_outputs_ok env base r fmts ww h, ?_⟩
    simp [hsrt]
  · intro seg hw
    constructor
    · unfold srtCue
      rw [hw]
      simp [show wordLine [Word.mk "hi" 0 0, Word.mk "there" 0 0] = "hi there" from rfl,
        show pyStrip "hi there" = "hi there" from rfl,
        show Nat.repr 1 = "1" from rfl,
        String.intercalate, String.intercalate.go, String.append_assoc]
    · unfold srtCue
      rw [hw]
      simp [show Nat.repr 1 = "1" from rfl,
        String.intercalate, String.intercalate.go, String.append_assoc]

/-- Witness for C2 on a one-segment result. -/
theorem claim_C2_witness :
    ∃ files, save_outputs (fun _ => true) "out/clip"
        (TranscriptionResult.mk "hello" [Segment.mk 0 1 "hello" none]) {"srt"} false =
        .ok files ∧
      ("out/clip" ++ ".srt",
        FileData.text (srtContent
          (TranscriptionResult.mk "hello" [Segment.mk 0 1 "hello" none]) false)) ∈ files :=
  claim_C2_srt_layout.2.1 (fun _ => true) "out/clip"
    (TranscriptionResult.mk "hello" [Segment.mk 0 1 "hello" none]) {"srt"} false
    rfl (by decide)

/-- C3: the vtt file begins with the `WEBVTT` header and a blank line,
then for each segment in order an unnumbered cue of the
period-timestamp line and the trimmed text followed by a blank line; no
word line is ever emitted regardless of the `includeWordLine` flag. -/
theorem claim_C3_vtt_layout :
    (∀ r, vttContent r = vttContentSpec r) ∧
    (∀ env base r fmts ww, makedirsOk env (pyDirname base) = true → "vtt" ∈ fmts →
      ∃ files, save_outputs env base r fmts ww = .ok files ∧
        (base ++ ".vtt", FileData.text (vttContent r)) ∈ files) := by
  refine ⟨vttContent_eq_spec, ?_⟩
  intro env base r fmts ww h hvtt
  refine ⟨_, save_outputs_ok env base r fmts ww h, ?_⟩
  simp [hvtt]

/-- Witness for C3. -/
theorem claim_C3_witness :
    ∃ files, save_outputs (fun _ => true) "out/clip"
        (TranscriptionResult.mk "hello" [Segment.mk 0 1 "hello" none]) {"vtt"} true =
        .ok files ∧
      ("out/clip" ++ ".vtt",
        FileData.text (vttContent
          (TranscriptionResult.mk "hello" [Segment.mk 0 1 "hello" none]))) ∈ files :=
  claim_C3_vtt_layout.2 (fun _ => true) "out/clip"
    (TranscriptionResult.mk "hello" [Segment.mk 0 1 "hello" none]) {"vtt"} true
    rfl (by decide)

/-- C4: the txt file's content is exactly `result.fullText` stripped of
leading and trailing whitespace plus one trailing newline; the segments
are not used by this format. -/
theorem claim_C4_txt_output :
    (∀ r, txtContent r = pyStrip r.text ++ "\n") ∧
    (∀ text segs segs', txtContent (TranscriptionResult.mk text segs) =
      txtContent (TranscriptionResult.mk text segs')) ∧
    (∀ env base r fmts ww, makedirsOk env (pyDirname base) = true → "txt" ∈ fmts →
      ∃ files, save_outputs env base r fmts ww = .ok files ∧
        (base ++ ".txt", FileData.text (pyStrip r.text ++ "\n")) ∈ files) := by
  refine ⟨fun _ => rfl, fun _ _ _ => rfl, ?_⟩
  intro env base r fmts ww h htxt
  refine ⟨_, save_outputs_ok env base r fmts ww h, ?_⟩
  simp [htxt, txtContent]

/-- Witness for C4. -/
theorem claim_C4_witness :
    ∃ files, save_outputs (fun _ => true) "out/clip"
        (TranscriptionResult.mk " hello " []) {"txt"} false = .ok files ∧
      ("out/clip" ++ ".txt", FileData.text (pyStrip " hello " ++ "\n")) ∈ files :=
  claim_C4_txt_output.2.2 (fun _ => true) "out/clip"
    (TranscriptionResult.mk " hello " []) {"txt"} false rfl (by decide)

/-- C5: exactly one file per recognized tag present in the format set,
unrecognized tags silently ignored, zero files for the empty set, four
files for the full set. -/
theorem claim_C5_format_selection :
    (∀ env base r fmts ww, makedirsOk env (pyDirname base) = true →
      ∃ files, save_outputs env base r fmts ww = .ok files ∧
        files.map Prod.fst =
          (["txt", "srt", "vtt", "json"].filter (fun tag => decide (tag ∈ fmts))).map
            (fun tag => base ++ "." ++ tag)) ∧
    (∀ env base r fmts ww tag, tag ∉ (["txt", "srt", "vtt", "json"] : List String) →
      save_outputs env base r (insert tag fmts) ww = save_outputs env base r fmts ww) ∧
    (∀ env base r ww, makedirsOk env (pyDirname base) = true →
      save_outputs env base r ∅ ww = .ok []) ∧
    (∀ env base r ww, makedirsOk env (pyDirname base) = true →
      ∃ files, save_outputs env base r ({"txt", "srt", "vtt", "json"} : Finset String) ww =
        .ok files ∧ files.length = 4) := by
  refine ⟨?_, ?_, ?_, ?_⟩
  · intro env base r fmts ww h
    refine ⟨_, save_outputs_ok env base r fmts ww h, ?_⟩
    by_cases h1 : "txt" ∈ fmts <;> by_cases h2 : "srt" ∈ fmts <;>
      by_cases h3 : "vtt" ∈ fmts <;> by_cases h4 : "json" ∈ fmts <;>
      simp [h1, h2, h3, h4, String.append_assoc]
  · intro env base r fmts ww tag htag
    have t1 : ¬(("txt" : String) = tag) := fun e => htag (by rw [← e]; simp)
    have t2 : ¬(("srt" : String) = tag) := fun e => htag (by rw [← e]; simp)
    have t3 : ¬(("vtt" : String) = tag) := fun e => htag (by rw [← e]; simp)
    have t4 : ¬(("json" : String) = tag) := fun e => htag (by rw [← e]; simp)
    simp only [save_outputs, Finset.mem_insert, t1, t2, t3, t4, false_or]
  · intro env base r ww h
    rw [save_outputs_ok env base r ∅ ww h]
    simp
  · intro env base r ww h
    refine ⟨_, save_outputs_ok env base r _ ww h, ?_⟩
    simp [show ("txt" : String) ∈ ({"txt", "srt", "vtt", "json"} : Finset String) by decide,
      show ("srt" : String) ∈ ({"txt", "srt", "vtt", "json"} : Finset String) by decide,
      show ("vtt" : String) ∈ ({"txt", "srt", "vtt", "json"} : Finset String) by decide,
      show ("json" : String) ∈ ({"txt", "srt", "vtt", "json"} : Finset String) by decide]

/-- Witness for C5: the empty format set writes no file. -/
theorem claim_C5_witness :
    save_outputs (fun _ => true) "out/clip" (TranscriptionResult.mk "" []) ∅ false =
      .ok [] :=
  claim_C5_format_selection.2.2.1 (fun _ => true) "out/clip"
    (TranscriptionResult.mk "" []) false rfl

/-- C6: the json file serializes the full result such that decoding
reproduces the original fullText and every segment's
start/end/text/words, word timestamps included. -/
theorem claim_C6_json_fidelity :
    (∀ r, decodeResult (encodeResult r) = some r) ∧
    (∀ env base r fmts ww, makedirsOk env (pyDirname base) = true → "json" ∈ fmts →
      ∃ files, save_outputs env base r fmts ww = .ok files ∧
        (base ++ ".json", FileData.json (encodeResult r)) ∈ files) := by
  refine ⟨decodeResult_enc, ?_⟩
  intro env base r fmts ww h hjson
  refine ⟨_, save_outputs_ok env base r fmts ww h, ?_⟩
  simp [hjson]

/-- Witness for C6 on a result with word timestamps. -/
theorem claim_C6_witness :
    ∃ files, save_outputs (fun _ => true) "out/clip"
        (TranscriptionResult.mk "hi"
          [Segment.mk 0 1 "hi" (some [Word.mk "hi" 0 1])]) {"json"} true = .ok files ∧
      ("out/clip" ++ ".json",
        FileData.json (encodeResult (TranscriptionResult.mk "hi"
          [Segment.mk 0 1 "hi" (some [Word.mk "hi" 0 1])]))) ∈ files :=
  claim_C6_json_fidelity.2 (fun _ => true) "out/clip"
    (TranscriptionResult.mk "hi" [Segment.mk 0 1 "hi" (some [Word.mk "hi" 0 1])])
    {"json"} true rfl (by decide)

/-- C7: the directory is set up before any file is written; when it
cannot be created the whole call fails with no file written. -/
theorem claim_C7_directory_setup :
    ∀ env base r fmts ww,
      (makedirsOk env (pyDirname base) = false →
        save_outputs env base r fmts ww = Except.error ()) ∧
      (makedirsOk env (pyDirname base) = true →
        ∃ files, save_outputs env base r fmts ww = Except.ok files) := by
  intro env base r fmts ww
  constructor
  · intro h
    unfold save_outputs
    rw [h]
    simp
  · intro h
    exact ⟨_, save_outputs_ok env base r fmts ww h⟩

/-- Witness for C7: a denied directory aborts the whole call. -/
theorem claim_C7_witness :
    save_outputs (fun _ => false) "a/b" (TranscriptionResult.mk "" []) ∅ false =
      Except.error () :=
  (claim_C7_directory_setup (fun _ => false) "a/b"
    (TranscriptionResult.mk "" []) ∅ false).1 rfl

/-- C8: segments with `end < start` raise no error: the renderers are
total, the cue layout is unchanged and the save succeeds; negative
values render as their arithmetic result, e.g. `-5 ↦ -1:59:55,000`. -/
theorem claim_C8_malformed_tolerated :
    (∀ seg : Segment, 0 ≤ seg.start → seg.«end» < seg.start →
      (∀ i ww, srtCue i seg ww = srtCueSpec i seg ww) ∧
      vttCue seg = vttCueSpec seg ∧
      (∀ env base fmts ww text segs, makedirsOk env (pyDirname base) = true →
        ∃ files, save_outputs env base (TranscriptionResult.mk text (seg :: segs))
          fmts ww = .ok files)) ∧
    secs_to_ts (-5) = "-1:59:55,000" ∧ vtt_ts (-5) = "-1:59:55.000" := by
  refine ⟨?_, ts_at_neg_5.1, ts_at_neg_5.2⟩
  intro seg _ _
  exact ⟨fun i ww => srtCue_eq_spec i seg ww, vttCue_eq_spec seg,
    fun env base fmts ww text segs h => ⟨_, save_outputs_ok env base _ fmts ww h⟩⟩

/-- Witness for C8 on a segment with `end < start`. -/
theorem claim_C8_witness :
    srtCue 1 (Segment.mk 1 0 "x" none) true = srtCueSpec 1 (Segment.mk 1 0 "x" none) true ∧
      vttCue (Segment.mk 1 0 "x" none) = vttCueSpec (Segment.mk 1 0 "x" none) :=
  ⟨(claim_C8_malformed_tolerated.1 (Segment.mk 1 0 "x" none) (by decide) (by decide)).1 1 true,
   (claim_C8_malformed_tolerated.1 (Segment.mk 1 0 "x" none) (by decide) (by decide)).2.1⟩

/-- C9: there is a non-negative `t` strictly below one minute
(`t = 59.9996`) whose rendering is `00:00:60,000` / `00:00:60.000`:
rounding the seconds field to 3 decimals reaches 60.000 with no carry
into the minutes field. -/
theorem claim_C9_sixty_seconds :
    (0 : ℚ) ≤ 599996 / 10000 ∧ (599996 / 10000 : ℚ) < 60 ∧
      secs_to_ts (599996 / 10000) = "00:00:60,000" ∧
      vtt_ts (599996 / 10000) = "00:00:60.000" :=
  ⟨by norm_num, by norm_num, ts_at_59_9996.1, ts_at_59_9996.2⟩

theorem dropWhile_eq_nil_of {p : Char → Bool} :
    ∀ l : List Char, (∀ c ∈ l, p c = true) → l.dropWhile p = []
  | [], _ => rfl
  | c :: l, h => by
    simp [List.dropWhile, h c (List.mem_cons_self c l),
      dropWhile_eq_nil_of l (fun x hx => h x (List.mem_cons_of_mem c hx))]

theorem pyDirname_no_slash {base : String} (h : ∀ c ∈ base.data, c ≠ '/') :
    pyDirname base = "" := by
  unfold pyDirname
  have hd : base.data.reverse.dropWhile (fun c => c ≠ '/') = [] := by
    apply dropWhile_eq_nil_of
    intro c hc
    rw [List.mem_reverse] at hc
    simp [h c hc]
  rw [hd]
  rfl

/-- C10: when `basePath` has no path separator, its dirname is the empty
string, directory setup fails and no file is written for any requested
format. -/
theorem claim_C10_bare_basename_fails :
    ∀ base : String, (∀ c ∈ base.data, c ≠ '/') →
      pyDirname base = "" ∧
      ∀ env r fmts ww, save_outputs env base r fmts ww = Except.error () := by
  intro base h
  have hd := pyDirname_no_slash h
  refine ⟨hd, fun env r fmts ww => ?_⟩
  unfold save_outputs
  rw [hd]
  rfl

/-- Witness for C10 at `basePath = "clip"` with every format requested. -/
theorem claim_C10_witness :
    pyDirname "clip" = "" ∧
      save_outputs (fun _ => true) "clip" (TranscriptionResult.mk "" [])
        {"txt", "srt", "vtt", "json"} false = Except.error () :=
  ⟨(claim_C10_bare_basename_fails "clip" (by decide)).1,
   (claim_C10_bare_basename_fails "clip" (by decide)).2 (fun _ => true)
     (TranscriptionResult.mk "" []) {"txt", "srt", "vtt", "json"} false⟩

end Mp3ToText
